import Mathlib

/-!
Verification of the monitor resolution and bulk mutation engine of
`datadog-monitor-manager` (Go). The Go sources are shallowly embedded:
Go strings become Lean `String`, Go slices become `List`, fallible
operations return `Except String`, and the remote Datadog collection is
passed explicitly as a `List Monitor`. Pure helpers from the Go standard
library (`strings.ReplaceAll`, `strings.TrimSpace`, `strings.ToLower`,
`strconv.ParseInt`) are modelled below on `List Char` with structural
(fuel) recursion so that every definition evaluates inside the kernel.
-/

/-- Model of Go `unicode.IsSpace` restricted to the ASCII whitespace
characters (the repository only ever feeds ASCII state strings). -/
def isGoSpace (c : Char) : Bool :=
  c == ' ' || c == '\t' || c == '\n' || c == '\r' || c == '\x0b' || c == '\x0c'

/-- Model of Go `strings.TrimSpace`: drop leading and trailing whitespace. -/
def goTrimSpace (s : String) : String :=
  ⟨(((s.data.dropWhile isGoSpace).reverse.dropWhile isGoSpace).reverse)⟩

/-- Model of Go `strings.ToLower` (ASCII case mapping, via `Char.toLower`). -/
def goToLower (s : String) : String :=
  ⟨s.data.map Char.toLower⟩

/-- Fuel-driven core of `strings.ReplaceAll`: leftmost, non-overlapping
replacement of `pat` by `rep`. Each step consumes at least one character
of `s`, so fuel `s.length` suffices. The repository never replaces an
empty pattern, so the empty-pattern case returns `s` unchanged. -/
def goReplaceAllAux (pat rep : List Char) : Nat → List Char → List Char
  | 0, s => s
  | _, [] => []
  | fuel + 1, c :: rest =>
    if pat ≠ [] ∧ pat.isPrefixOf (c :: rest) then
      rep ++ goReplaceAllAux pat rep fuel ((c :: rest).drop pat.length)
    else
      c :: goReplaceAllAux pat rep fuel rest

/-- Model of Go `strings.ReplaceAll s pat rep`. -/
def goReplaceAll (s pat rep : String) : String :=
  ⟨goReplaceAllAux pat.data rep.data s.data.length s.data⟩

/-- The `for strings.Contains(s, "  ") \x7b s = strings.ReplaceAll(s, "  ", " ") \x7d`
loop of `canonicalMonitorState` (src/cmd/add_tags.go:304-306). Every
productive pass shortens the string, so fuel `s.length` reaches the
fixpoint the Go loop reaches. -/
def collapseSpacesAux : Nat → String → String
  | 0, s => s
  | fuel + 1, s =>
    let t := goReplaceAll s "  " " "
    if t.length < s.length then collapseSpacesAux fuel t else s

def collapseSpaces (s : String) : String :=
  collapseSpacesAux s.length s

/-- Datadog monitor (src/internal/datadog/client.go:56-67). The claims
only inspect the identifier, name, tag list and overall state; the
`Type`, `Query`, `Message`, `Options` and timestamp fields are opaque to
every claim and are omitted from the embedding. -/
structure Monitor where
  id : Int
  name : String
  tags : List String
  overallState : String
deriving DecidableEq, Repr

/-- Tag-merge step of `AddTagsToMonitor` (src/internal/datadog/client.go:640-650).
The Go code first builds the `existingTags` membership map from the
monitor's tags and then appends every element of `tagsToAdd` that is not
in that map; the map is never extended during the loop, which this
embedding reproduces by testing membership against the original `tags`. -/
def addTagsToMonitorTags (tags tagsToAdd : List String) : List String :=
  tagsToAdd.foldl (fun acc tag => if tags.contains tag then acc else acc ++ [tag]) tags

/-- Tag-removal step of `RemoveTagsFromMonitor`
(src/internal/datadog/client.go:669-683): keep exactly the tags that are
not listed in `tagsToRemove`. -/
def removeTagsFromMonitorTags (tags tagsToRemove : List String) : List String :=
  tags.filter (fun tag => !tagsToRemove.contains tag)

/-- Per-item result entry of the delete loop of `DeleteMonitorsByFilter`
(src/internal/datadog/client.go:371-386) and of the add/remove-tags loops
(client.go:754-770, 835-851). Go stores these as `map[string]interface\x7b\x7d`
with keys `id`, `name`, `status` and, for successful tag mutations, `tags`. -/
structure BatchEntry where
  id : Int
  name : String
  status : String
  tags : Option (List String)
deriving DecidableEq, Repr

/-- Whether a repository call failed (a Go `err != nil`). -/
def exceptIsError {α : Type} : Except String α → Bool
  | .error _ => true
  | .ok _ => false

/-- One iteration of the delete loop of `DeleteMonitorsByFilter`
(src/internal/datadog/client.go:371-386): a failing delete is recorded as
status `failed: <err>` and the loop moves on; a success records `deleted`. -/
def deleteResultEntry (del : Monitor → Except String Unit) (m : Monitor) : BatchEntry :=
  match del m with
  | .error e => ⟨m.id, m.name, "failed: " ++ e, none⟩
  | .ok _ => ⟨m.id, m.name, "deleted", none⟩

/-- One iteration of the tag-mutation loop of `AddTagsToMonitors`
(src/internal/datadog/client.go:754-770): failure records `failed: <err>`
for the input monitor; success records `updated` with the identifier,
name and tags of the monitor returned by the update call. -/
def addTagsResultEntry (addOp : Monitor → Except String Monitor) (m : Monitor) : BatchEntry :=
  match addOp m with
  | .error e => ⟨m.id, m.name, "failed: " ++ e, none⟩
  | .ok updated => ⟨updated.id, updated.name, "updated", some updated.tags⟩

/-- The delete batch of `DeleteMonitorsByFilter` over the resolved
(filtered) monitor list: one result entry appended per monitor, in order. -/
def deleteMonitorsBatch (del : Monitor → Except String Unit) (monitors : List Monitor) :
    List BatchEntry :=
  monitors.map (deleteResultEntry del)

/-- The tag-mutation batch of `AddTagsToMonitors` over the resolved list. -/
def addTagsToMonitorsBatch (addOp : Monitor → Except String Monitor) (monitors : List Monitor) :
    List BatchEntry :=
  monitors.map (addTagsResultEntry addOp)

/-- How the CLI callers classify a batch report (src/cmd/delete_all.go:163-166,
src/cmd/add_tags.go:129-135): an entry is failed unless its status equals
the operation's success token (`deleted` resp. `updated`). -/
def failedCount (results : List BatchEntry) (successStatus : String) : Nat :=
  (results.filter (fun r => r.status != successStatus)).length

/-- The composite tag filter shared by `DeleteMonitorsByFilter`,
`AddTagsToMonitors` and `RemoveTagsFromMonitors`
(src/internal/datadog/client.go:320-367): a monitor matches when, for each
non-empty selector, the exact tag `key:value` occurs in its tag list. -/
def matchesServiceEnvNamespace (service env nspace : String) (m : Monitor) : Bool :=
  (service == "" || m.tags.contains ("service:" ++ service)) &&
  (env == "" || m.tags.contains ("env:" ++ env)) &&
  (nspace == "" || m.tags.contains ("namespace:" ++ nspace))

/-- The filtering pass preceding each batch loop. -/
def filterMonitorsByServiceEnvNamespace (monitors : List Monitor)
    (service env nspace : String) : List Monitor :=
  monitors.filter (matchesServiceEnvNamespace service env nspace)

/-- Query-field phase of `CustomizeTemplate` (src/internal/datadog/client.go:441-449):
protect the token `by \x7bservice\x7d` with the sentinel, substitute
`\x7bservice\x7d`, restore the sentinel, then substitute `\x7benv\x7d`
(not uppercased) and `\x7bnamespace\x7d`. -/
def customizeTemplateQuery (query service env nspace : String) : String :=
  let q1 := goReplaceAll query "by \x7bservice\x7d" "by __SERVICE_PRESERVE__"
  let q2 := goReplaceAll q1 "\x7bservice\x7d" service
  let q3 := goReplaceAll q2 "__SERVICE_PRESERVE__" "\x7bservice\x7d"
  let q4 := goReplaceAll q3 "\x7benv\x7d" env
  goReplaceAll q4 "\x7bnamespace\x7d" nspace

/-- The claim's description of the query phase, word for word: the
sentinel is restored only after the `\x7benv\x7d` and `\x7bnamespace\x7d`
substitutions. Compare with `customizeTemplateQuery` above. -/
def customizeTemplateQueryClaim (query service env nspace : String) : String :=
  let q1 := goReplaceAll query "by \x7bservice\x7d" "by __SERVICE_PRESERVE__"
  let q2 := goReplaceAll q1 "\x7bservice\x7d" service
  let q3 := goReplaceAll q2 "\x7benv\x7d" env
  let q4 := goReplaceAll q3 "\x7bnamespace\x7d" nspace
  goReplaceAll q4 "__SERVICE_PRESERVE__" "\x7bservice\x7d"

/-- The amended description: identical to the claim except that the
sentinel is restored directly after the `\x7bservice\x7d` substitution,
before `\x7benv\x7d` and `\x7bnamespace\x7d` are replaced. -/
def customizeTemplateQueryAmended (query service env nspace : String) : String :=
  let q1 := goReplaceAll query "by \x7bservice\x7d" "by __SERVICE_PRESERVE__"
  let q2 := goReplaceAll q1 "\x7bservice\x7d" service
  let q3 := goReplaceAll q2 "__SERVICE_PRESERVE__" "\x7bservice\x7d"
  let q4 := goReplaceAll q3 "\x7benv\x7d" env
  goReplaceAll q4 "\x7bnamespace\x7d" nspace

/-- One iteration of the dedup-append loops of the tag phase of
`CustomizeTemplate` (src/internal/datadog/client.go:477-502): append the
tag unless it already occurs in the accumulated list. -/
def appendIfMissing (tags : List String) (tag : String) : List String :=
  if tags.contains tag then tags else tags ++ [tag]

/-- Tag phase of `CustomizeTemplate` (src/internal/datadog/client.go:460-505):
start from the template's own tags, append the three derived tags
`service:`, `env:`, `namespace:` in that order when missing, then append
each additional tag when missing. -/
def customizeTemplateTags (templateTags : List String) (service env nspace : String)
    (additionalTags : List String) : List String :=
  let serviceTags := ["service:" ++ service, "env:" ++ env, "namespace:" ++ nspace]
  let tags := serviceTags.foldl appendIfMissing templateTags
  additionalTags.foldl appendIfMissing tags

/-- `FindMonitorByName` (src/internal/datadog/client.go:194-207) over the
full listed collection: the first monitor whose name equals `name`
exactly, and `none` — not an error — when no name matches. -/
def FindMonitorByName (monitors : List Monitor) (name : String) : Option Monitor :=
  monitors.find? (fun m => m.name == name)

/-- Which write `UpsertMonitor` issues against the repository. -/
inductive UpsertCall where
  | update (id : Int)
  | create
deriving DecidableEq, Repr

/-- Decision logic of `UpsertMonitor` (src/internal/datadog/client.go:210-223)
over the listed collection `monitors`: an existing exact-name match is
updated under its identifier with `wasCreated = false`; a missing name
leads to a create with `wasCreated = true`. -/
def UpsertMonitor (monitors : List Monitor) (monitor : Monitor) : UpsertCall × Bool :=
  match FindMonitorByName monitors monitor.name with
  | some existing => (UpsertCall.update existing.id, false)
  | none => (UpsertCall.create, true)

/-- `canonicalMonitorState` (src/cmd/add_tags.go:299-308): trim, map `-`
and `_` to spaces, collapse repeated spaces, lowercase. -/
def canonicalMonitorState (s : String) : String :=
  let s1 := goTrimSpace s
  let s2 := goReplaceAll s1 "-" " "
  let s3 := goReplaceAll s2 "_" " "
  let s4 := collapseSpaces s3
  goToLower s4

/-- `filterMonitorsByState` (src/cmd/add_tags.go:310-322): an empty
canonical desired state disables the filter; otherwise keep the monitors
whose canonical overall state equals the canonical desired state. -/
def filterMonitorsByState (monitors : List Monitor) (desiredState : String) : List Monitor :=
  let want := canonicalMonitorState desiredState
  if want == "" then monitors
  else monitors.filter (fun m => canonicalMonitorState m.overallState == want)

/-- Flag values of the `add-tags` command (src/cmd/add_tags.go:19-28).
The Go field `addTagsNamespace` is called `nspace` because `namespace` is
reserved in Lean. -/
structure AddTagsFlags where
  monitorID : Int
  service : String
  env : String
  nspace : String
  filterTags : String
  query : String
  status : String
  tags : List String
deriving DecidableEq, Repr

/-- Validation phase of `runAddTags` (src/cmd/add_tags.go:43-61), the
code that runs before `datadog.NewClient()` is constructed: every remote
interaction of the command sits behind an `.ok` result of this function. -/
def runAddTagsValidate (f : AddTagsFlags) : Except String Unit :=
  if f.tags.length == 0 then
    .error "at least one --tag is required"
  else if f.monitorID == 0 && f.service == "" && f.env == "" && f.nspace == "" &&
      f.filterTags == "" && f.query == "" then
    .error "either --monitor-id or filter flags must be provided"
  else if f.monitorID > 0 && (f.service != "" || f.env != "" || f.nspace != "" ||
      f.filterTags != "" || f.query != "" || f.status != "") then
    .error "cannot use --monitor-id together with filter flags"
  else if f.query != "" && (f.service != "" || f.env != "" || f.nspace != "" ||
      f.filterTags != "") then
    .error "cannot use --query together with other filter flags"
  else
    .ok ()

/-- Parsed JSON document. Objects are association lists in document
order (the claims never exercise duplicate keys). A number is either an
integer literal carrying its exact value, or `numOther`, a non-integer
numeric literal (fraction or exponent) kept as its source text — Go's
decoder rejects every such literal when the target is `int64`, which is
the only way the claims observe numbers. -/
inductive Json where
  | null
  | bool (b : Bool)
  | int (n : Int)
  | numOther (lit : String)
  | str (s : String)
  | arr (elems : List Json)
  | obj (fields : List (String × Json))

/-- Model of Go `strings.EqualFold` on ASCII (encoding/json matches JSON
keys to struct fields case-insensitively). -/
def goEqualFold (a b : String) : Bool :=
  goToLower a == goToLower b

/-- Value a JSON object assigns to a struct field: Go decodes keys in
document order, each matching key (case-insensitively) overwriting the
previous one, so the last matching key wins. -/
def structFieldValue (fields : List (String × Json)) (key : String) : Option Json :=
  (fields.filter (fun kv => goEqualFold kv.1 key)).getLast?.map (fun kv => kv.2)

/-- A template entry (src/internal/datadog/client.go:70-73). -/
structure TemplateData where
  name : String
  config : List (String × Json)

/-- Go `json.Unmarshal` of a JSON value into the `Name string` field:
a string value is taken, an absent field or JSON `null` leaves the zero
value `""`, anything else is a type error. -/
def decodeNameField : Option Json → Except String String
  | none => .ok ""
  | some (.str s) => .ok s
  | some .null => .ok ""
  | some _ => .error "cannot unmarshal into Go value of type string"

/-- Go `json.Unmarshal` into the `Config map[string]interface\x7b\x7d` field:
an object is taken, absence or `null` leaves the nil map, anything else
is a type error. -/
def decodeConfigField : Option Json → Except String (List (String × Json))
  | none => .ok []
  | some (.obj fields) => .ok fields
  | some .null => .ok []
  | some _ => .error "cannot unmarshal into Go value of type map"

/-- Go `json.Unmarshal` of one `templates` array element into
`TemplateData` (src/internal/datadog/client.go:70-73): `null` leaves the
zero struct, an object decodes its `name` and `config` fields, anything
else is a type error. -/
def decodeTemplateData : Json → Except String TemplateData
  | .null => .ok ⟨"", []⟩
  | .obj fields => do
    let name ← decodeNameField (structFieldValue fields "name")
    let config ← decodeConfigField (structFieldValue fields "config")
    .ok ⟨name, config⟩
  | _ => .error "cannot unmarshal into Go value of type TemplateData"

/-- Go `json.Unmarshal` of the whole document into `TemplateFile`
(src/internal/datadog/client.go:76-79, 399): the result is the decoded
`templates` array, empty when the field is absent or `null`; a document
that is not an object (and not `null`) is a type error. -/
def decodeTemplateFile : Json → Except String (List TemplateData)
  | .null => .ok []
  | .obj fields =>
    match structFieldValue fields "templates" with
    | none => .ok []
    | some .null => .ok []
    | some (.arr elems) => elems.mapM decodeTemplateData
    | some _ => .error "cannot unmarshal into Go value of type []TemplateData"
  | _ => .error "cannot unmarshal into Go value of type TemplateFile"

/-- Go `json.Unmarshal` of the whole document into
`map[string]interface\x7b\x7d` (src/internal/datadog/client.go:401, 415):
succeeds exactly on objects and `null`. -/
def decodeMapObject : Json → Except String (List (String × Json))
  | .obj fields => .ok fields
  | .null => .ok []
  | _ => .error "cannot unmarshal into Go value of type map"

/-- `LoadTemplateFromJSON` (src/internal/datadog/client.go:392-422) after
the file read and JSON parse: dispatch on the decoded shape of the
already-parsed document `doc`. -/
def LoadTemplateFromJSON (doc : Json) : Except String (List TemplateData) :=
  match decodeTemplateFile doc with
  | .error _ =>
    match decodeMapObject doc with
    | .error e => .error ("invalid JSON in template file: " ++ e)
    | .ok single => .ok [⟨"Single Template", single⟩]
  | .ok templates =>
    if templates.length > 0 then .ok templates
    else
      match decodeMapObject doc with
      | .error e => .error ("invalid JSON in template file: " ++ e)
      | .ok single => .ok [⟨"Single Template", single⟩]

/-- Whether the document carries a decodable, non-empty `templates`
array (the branch of `LoadTemplateFromJSON` that returns the entries
themselves, src/internal/datadog/client.go:410-412). -/
def hasNonemptyTemplates (doc : Json) : Bool :=
  match decodeTemplateFile doc with
  | .ok (_ :: _) => true
  | _ => false

/-- Lower bound of Go `int64`. -/
def int64Lo : Int := -(2 ^ 63)

/-- Upper bound of Go `int64`. -/
def int64Hi : Int := 2 ^ 63 - 1

/-- Model of Go `strconv.ParseInt(s, 10, 64)`: an optional sign followed
by at least one decimal digit, with the value required to fit `int64`. -/
def parseInt64 (s : String) : Option Int :=
  match s.data with
  | [] => none
  | c :: cs =>
    let neg := c == '-'
    let digits := if c == '-' || c == '+' then cs else c :: cs
    if digits.isEmpty then none
    else if digits.all Char.isDigit then
      let n : Nat := digits.foldl (fun acc d => acc * 10 + (d.toNat - '0'.toNat)) 0
      let v : Int := if neg then -(n : Int) else (n : Int)
      if int64Lo ≤ v && v ≤ int64Hi then some v else none
    else none

/-- Go `json.Unmarshal` of a JSON value into a `string` variable: a
string succeeds, `null` is a no-op success that leaves the zero value
`""`, everything else is a type error. -/
def unmarshalGoString : Json → Option String
  | .str s => some s
  | .null => some ""
  | _ => none

/-- Go `json.Unmarshal` of a JSON value into an `int64` variable: an
integer literal within the `int64` range succeeds, `null` is a no-op
success leaving `0`, and floats, out-of-range integers and non-numbers
are type errors. -/
def unmarshalGoInt64 : Json → Option Int
  | .int n => if int64Lo ≤ n && n ≤ int64Hi then some n else none
  | .null => some 0
  | _ => none

/-- `Timestamp.UnmarshalJSON` (src/internal/datadog/client.go:26-48):
try the value as a string and parse it with `strconv.ParseInt`, falling
back to `0` when the parse fails; otherwise try it as an `int64`,
falling back to `0` when that fails. Every branch returns success. -/
def unmarshalTimestamp (data : Json) : Except String Int :=
  match unmarshalGoString data with
  | some s =>
    match parseInt64 s with
    | some val => .ok val
    | none => .ok 0
  | none =>
    match unmarshalGoInt64 data with
    | some val => .ok val
    | none => .ok 0

deriving instance DecidableEq for Except

/-!
Helper lemmas shared between several claims.
-/

/-- A failure-description status never equals the `deleted` success token. -/
theorem failedStatus_ne_deleted (e : String) : ("failed: " ++ e) ≠ "deleted" := by
  intro h
  have hl := congrArg String.length h
  rw [String.length_append] at hl
  have h8 : ("failed: " : String).length = 8 := rfl
  have h7 : ("deleted" : String).length = 7 := rfl
  rw [h8, h7] at hl
  omega

/-- A failure-description status never equals the `updated` success token. -/
theorem failedStatus_ne_updated (e : String) : ("failed: " ++ e) ≠ "updated" := by
  intro h
  have hl := congrArg String.length h
  rw [String.length_append] at hl
  have h8 : ("failed: " : String).length = 8 := rfl
  have h7 : ("updated" : String).length = 7 := rfl
  rw [h8, h7] at hl
  omega

/-- C1. The tag-add mutation deduplicates against the monitor's original
tags only: a tag occurring twice in `tagsToAdd` and absent from the
monitor is appended twice, so the mutation does introduce duplicates,
contradicting both the code's own `avoid duplicates` comment and the
spec's no-duplicates invariant. Evaluation of the embedded merge at the
failing input. -/
theorem addTagsToMonitorTags_repeated_input_duplicates :
    addTagsToMonitorTags ["env:prd"] ["team:x", "team:x"] =
      ["env:prd", "team:x", "team:x"] ∧
    ¬ (addTagsToMonitorTags ["env:prd"] ["team:x", "team:x"]).Nodup := by
  decide

/-- C9. Removing a tag directly after adding it restores the monitor's
original tag list, provided the tag was absent originally. -/
theorem removeTags_addTags_roundTrip (tags : List String) (t : String) (h : t ∉ tags) :
    removeTagsFromMonitorTags (addTagsToMonitorTags tags [t]) [t] = tags := by
  have hc : tags.contains t = false := by
    simpa using h
  unfold addTagsToMonitorTags removeTagsFromMonitorTags
  simp only [List.foldl, hc, Bool.false_eq_true, if_false]
  rw [List.filter_append]
  have h1 : tags.filter (fun tag => !([t].contains tag)) = tags := by
    apply List.filter_eq_self.2
    intro a ha
    simp only [List.contains_cons, List.contains_nil, Bool.or_false, Bool.not_eq_eq_eq_not,
      Bool.not_true, beq_eq_false_iff_ne, ne_eq]
    intro hat
    exact h (hat ▸ ha)
  have h2 : [t].filter (fun tag => !([t].contains tag)) = [] := by
    simp
  rw [h1, h2, List.append_nil]

/-- C9 witness: the round-trip theorem applied at a concrete monitor tag
list and a concrete absent tag. -/
theorem removeTags_addTags_roundTrip_witness :
    removeTagsFromMonitorTags
      (addTagsToMonitorTags ["env:prd", "service:checkout"] ["team:x"]) ["team:x"] =
      ["env:prd", "service:checkout"] :=
  removeTags_addTags_roundTrip ["env:prd", "service:checkout"] "team:x" (by decide)

/-- C3 counterexample. The claim restores the sentinel only after the
env and namespace substitutions; the code restores it immediately after
the service substitution. An env value containing the sentinel text
separates the two orders: the code leaves the sentinel text in the
output, the claimed order rewrites it to `\x7bservice\x7d`. -/
theorem customizeTemplateQuery_claim_order_differs :
    customizeTemplateQuery "\x7benv\x7d" "checkout" "__SERVICE_PRESERVE__" "shop" =
      "__SERVICE_PRESERVE__" ∧
    customizeTemplateQueryClaim "\x7benv\x7d" "checkout" "__SERVICE_PRESERVE__" "shop" =
      "\x7bservice\x7d" ∧
    customizeTemplateQuery "\x7benv\x7d" "checkout" "__SERVICE_PRESERVE__" "shop" ≠
      customizeTemplateQueryClaim "\x7benv\x7d" "checkout" "__SERVICE_PRESERVE__" "shop" := by
  refine ⟨by decide, by decide, by decide⟩

/-- C2. Each batch loop produces exactly one result entry per resolved
monitor, positionally in resolved order (so never for a monitor outside
the input set); a per-item failure is recorded as that entry and the
loop continues; the failed-entry count equals the number of failed
operations. -/
theorem batchReport_spec (del : Monitor → Except String Unit)
    (addOp : Monitor → Except String Monitor) (monitors : List Monitor) :
    (deleteMonitorsBatch del monitors).length = monitors.length ∧
    (addTagsToMonitorsBatch addOp monitors).length = monitors.length ∧
    (∀ i : Nat, (deleteMonitorsBatch del monitors)[i]? =
      (monitors[i]?).map (deleteResultEntry del)) ∧
    (∀ i : Nat, (addTagsToMonitorsBatch addOp monitors)[i]? =
      (monitors[i]?).map (addTagsResultEntry addOp)) ∧
    (∀ r ∈ deleteMonitorsBatch del monitors, ∃ m ∈ monitors, r = deleteResultEntry del m) ∧
    (∀ r ∈ addTagsToMonitorsBatch addOp monitors,
      ∃ m ∈ monitors, r = addTagsResultEntry addOp m) ∧
    failedCount (deleteMonitorsBatch del monitors) "deleted" =
      (monitors.filter (fun m => exceptIsError (del m))).length ∧
    failedCount (addTagsToMonitorsBatch addOp monitors) "updated" =
      (monitors.filter (fun m => exceptIsError (addOp m))).length := by
  refine ⟨List.length_map _ _, List.length_map _ _, ?_, ?_, ?_, ?_, ?_, ?_⟩
  · intro i
    exact List.getElem?_map ..
  · intro i
    exact List.getElem?_map ..
  · intro r hr
    rcases List.mem_map.1 hr with ⟨m, hm, he⟩
    exact ⟨m, hm, he.symm⟩
  · intro r hr
    rcases List.mem_map.1 hr with ⟨m, hm, he⟩
    exact ⟨m, hm, he.symm⟩
  · unfold failedCount deleteMonitorsBatch
    rw [List.filter_map, List.length_map]
    congr 1
    apply List.filter_congr
    intro m _
    cases h : del m with
    | error e =>
      simp [Function.comp, deleteResultEntry, h, exceptIsError, bne,
        failedStatus_ne_deleted e]
    | ok v =>
      simp [Function.comp, deleteResultEntry, h, exceptIsError]
  · unfold failedCount addTagsToMonitorsBatch
    rw [List.filter_map, List.length_map]
    congr 1
    apply List.filter_congr
    intro m _
    cases h : addOp m with
    | error e =>
      simp [Function.comp, addTagsResultEntry, h, exceptIsError, bne,
        failedStatus_ne_updated e]
    | ok v =>
      simp [Function.comp, addTagsResultEntry, h, exceptIsError]

/-- C2 witness: the batch theorem applied to a two-monitor set where the
delete of monitor 1 is made to fail: exactly one failed entry. -/
theorem batchReport_spec_witness :
    failedCount (deleteMonitorsBatch
      (fun m => if m.id = 1 then .error "status 403" else .ok ())
      [⟨1, "a", [], "OK"⟩, ⟨2, "b", [], "OK"⟩]) "deleted" = 1 := by
  have h := batchReport_spec (fun m => if m.id = 1 then .error "status 403" else .ok ())
    (fun m => .ok m) [⟨1, "a", [], "OK"⟩, ⟨2, "b", [], "OK"⟩]
  rw [h.2.2.2.2.2.2.1]
  decide

/-- C4. The upsert lookup scans the full listed collection for an exact
name match: a missing name is not an error but yields the create path
with `wasCreated = true`, while a match leads to an update against the
matched monitor's identifier with `wasCreated = false`. -/
theorem UpsertMonitor_spec (monitors : List Monitor) (monitor : Monitor) :
    (FindMonitorByName monitors monitor.name = none ↔
      ∀ m ∈ monitors, m.name ≠ monitor.name) ∧
    (∀ ex, FindMonitorByName monitors monitor.name = some ex →
      ex ∈ monitors ∧ ex.name = monitor.name ∧
      UpsertMonitor monitors monitor = (UpsertCall.update ex.id, false)) ∧
    (FindMonitorByName monitors monitor.name = none →
      UpsertMonitor monitors monitor = (UpsertCall.create, true)) := by
  refine ⟨?_, ?_, ?_⟩
  · unfold FindMonitorByName
    rw [List.find?_eq_none]
    constructor
    · intro h m hm
      have := h m hm
      simpa using this
    · intro h m hm
      simpa using h m hm
  · intro ex hex
    refine ⟨List.mem_of_find?_eq_some hex, ?_, ?_⟩
    · have := List.find?_some hex
      simpa using this
    · unfold UpsertMonitor
      rw [hex]
  · intro h
    unfold UpsertMonitor
    rw [h]

/-- C4 witness: the upsert decision applied at a one-monitor collection,
once with a matching name (update, `wasCreated = false`) and once with a
fresh name (create, `wasCreated = true`). -/
theorem UpsertMonitor_spec_witness :
    UpsertMonitor [⟨7, "api latency", [], "OK"⟩] ⟨0, "api latency", ["env:prd"], ""⟩ =
      (UpsertCall.update 7, false) ∧
    UpsertMonitor [⟨7, "api latency", [], "OK"⟩] ⟨0, "fresh monitor", [], ""⟩ =
      (UpsertCall.create, true) := by
  constructor
  · exact ((UpsertMonitor_spec [⟨7, "api latency", [], "OK"⟩]
      ⟨0, "api latency", ["env:prd"], ""⟩).2.1 ⟨7, "api latency", [], "OK"⟩ (by decide)).2.2
  · exact (UpsertMonitor_spec [⟨7, "api latency", [], "OK"⟩]
      ⟨0, "fresh monitor", [], ""⟩).2.2 (by decide)

/-- C6. Combining a complex query string with a service, env, namespace
or filter-tags selector makes the validation phase of `runAddTags` fail;
the Datadog client is only built, and remote calls only issued, after
validation succeeds, so no remote call happens. -/
theorem runAddTags_query_filter_exclusion (f : AddTagsFlags)
    (hq : f.query ≠ "")
    (hf : f.service ≠ "" ∨ f.env ≠ "" ∨ f.nspace ≠ "" ∨ f.filterTags ≠ "") :
    exceptIsError (runAddTagsValidate f) = true := by
  unfold runAddTagsValidate
  split_ifs with h1 h2 h3 h4
  · rfl
  · rfl
  · rfl
  · rfl
  · exfalso
    apply h4
    simp only [Bool.and_eq_true, Bool.or_eq_true, bne_iff_ne, ne_eq]
    exact ⟨hq, by tauto⟩

/-- C6 witness: the query/service combination is rejected by validation
at a concrete flag assignment. -/
theorem runAddTags_query_filter_exclusion_witness :
    exceptIsError (runAddTagsValidate
      ⟨0, "payments", "", "", "", "service:(a OR b)", "", ["team:core"]⟩) = true :=
  runAddTags_query_filter_exclusion _ (by decide) (Or.inl (by decide))

/-- C7 counterexample. When the desired state canonicalizes to the empty
string (a whitespace-only status flag) the post-filter is a no-op and
keeps monitors whose canonical state differs from the canonical desired
state, so the filter is not always an exact-match filter. -/
theorem filterMonitorsByState_blank_counterexample :
    filterMonitorsByState [⟨1, "m1", [], "Alert"⟩] " " = [⟨1, "m1", [], "Alert"⟩] ∧
    canonicalMonitorState "Alert" ≠ canonicalMonitorState " " := by
  exact ⟨by decide, by decide⟩

/-- C7 amended. Whenever the desired state does not canonicalize to the
empty string, the post-filter keeps exactly the monitors whose canonical
overall state equals the canonical desired state, and canonicalization
identifies `No-Data`, `no_data` and `No   Data`. -/
theorem filterMonitorsByState_amended (monitors : List Monitor) (desiredState : String)
    (h : canonicalMonitorState desiredState ≠ "") :
    filterMonitorsByState monitors desiredState =
      monitors.filter
        (fun m => canonicalMonitorState m.overallState == canonicalMonitorState desiredState) ∧
    (∀ m : Monitor, m ∈ filterMonitorsByState monitors desiredState ↔
      m ∈ monitors ∧
        canonicalMonitorState m.overallState = canonicalMonitorState desiredState) ∧
    canonicalMonitorState "No-Data" = canonicalMonitorState "no_data" ∧
    canonicalMonitorState "no_data" = canonicalMonitorState "No   Data" := by
  have hb : (canonicalMonitorState desiredState == "") = false := by
    simpa using h
  refine ⟨?_, ?_, by decide, by decide⟩
  · unfold filterMonitorsByState
    simp [hb]
  · intro m
    unfold filterMonitorsByState
    simp [hb, List.mem_filter]

/-- C7 witness: the amended filter applied at a concrete monitor list
and the desired state `No-Data`, matching the monitor in state
`No Data` and dropping the one in state `Alert`. -/
theorem filterMonitorsByState_amended_witness :
    filterMonitorsByState
      [⟨1, "a", [], "No Data"⟩, ⟨2, "b", [], "Alert"⟩] "No-Data" =
      [⟨1, "a", [], "No Data"⟩] := by
  have h := filterMonitorsByState_amended
    [⟨1, "a", [], "No Data"⟩, ⟨2, "b", [], "Alert"⟩] "No-Data" (by decide)
  rw [h.1]
  decide

/-- C3 amended. The query substitution protects `by \x7bservice\x7d`
with the sentinel, replaces `\x7bservice\x7d`, restores the sentinel
immediately, and only then replaces `\x7benv\x7d` (not uppercased) and
`\x7bnamespace\x7d`; the spec's concrete example holds as stated. -/
theorem customizeTemplateQuery_amended_spec :
    (∀ query service env nspace : String,
      customizeTemplateQuery query service env nspace =
        customizeTemplateQueryAmended query service env nspace) ∧
    customizeTemplateQuery
        "sum(last_5m):sum:http.requests\x7bservice:\x7bservice\x7d\x7d by \x7bservice\x7d"
        "checkout" "prd" "shop" =
      "sum(last_5m):sum:http.requests\x7bservice:checkout\x7d by \x7bservice\x7d" := by
  exact ⟨fun _ _ _ _ => rfl, by decide⟩

/-- Dedup-append of an already-present tag is a no-op. -/
theorem appendIfMissing_of_mem {acc : List String} {d : String} (h : d ∈ acc) :
    appendIfMissing acc d = acc := by
  simp [appendIfMissing, h]

/-- Dedup-append of a missing tag appends it at the end. -/
theorem appendIfMissing_of_not_mem {acc : List String} {d : String} (h : d ∉ acc) :
    appendIfMissing acc d = acc ++ [d] := by
  simp [appendIfMissing, h]

/-- Membership after a dedup-append fold: exactly the accumulated tags
plus the folded tags. -/
theorem mem_foldl_appendIfMissing (ds : List String) (acc : List String) (x : String) :
    x ∈ ds.foldl appendIfMissing acc ↔ x ∈ acc ∨ x ∈ ds := by
  induction ds generalizing acc with
  | nil => simp
  | cons d ds ih =>
    rw [List.foldl_cons, ih]
    by_cases hd : d ∈ acc
    · rw [appendIfMissing_of_mem hd]
      have hxd : x = d → x ∈ acc := fun e => e ▸ hd
      simp only [List.mem_cons]
      tauto
    · rw [appendIfMissing_of_not_mem hd]
      simp only [List.mem_append, List.mem_cons, List.mem_singleton]
      tauto

/-- A dedup-append fold never introduces a duplicate. -/
theorem nodup_foldl_appendIfMissing (ds acc : List String) (h : acc.Nodup) :
    (ds.foldl appendIfMissing acc).Nodup := by
  induction ds generalizing acc with
  | nil => simpa
  | cons d ds ih =>
    rw [List.foldl_cons]
    apply ih
    by_cases hd : d ∈ acc
    · rwa [appendIfMissing_of_mem hd]
    · rw [appendIfMissing_of_not_mem hd]
      simp [List.nodup_append, h, hd]

/-- A dedup-append fold leaves the accumulated list as an unchanged
initial segment. -/
theorem foldl_appendIfMissing_exists_rest (ds acc : List String) :
    ∃ rest, ds.foldl appendIfMissing acc = acc ++ rest := by
  induction ds generalizing acc with
  | nil => exact ⟨[], by simp⟩
  | cons d ds ih =>
    rw [List.foldl_cons]
    by_cases hd : d ∈ acc
    · rw [appendIfMissing_of_mem hd]
      exact ih acc
    · rw [appendIfMissing_of_not_mem hd]
      rcases ih (acc ++ [d]) with ⟨rest, hrest⟩
      exact ⟨d :: rest, by rw [hrest, List.append_assoc]; rfl⟩

/-- Folding pairwise-distinct tags through dedup-append is appending
those of them that are missing, in order. -/
theorem foldl_appendIfMissing_eq_append_filter :
    ∀ (ds : List String), ds.Nodup → ∀ acc : List String,
      ds.foldl appendIfMissing acc = acc ++ ds.filter (fun t => !acc.contains t)
  | [], _, acc => by simp
  | d :: ds, hd, acc => by
    have hds : ds.Nodup := (List.nodup_cons.1 hd).2
    have hdd : d ∉ ds := (List.nodup_cons.1 hd).1
    rw [List.foldl_cons]
    by_cases hmem : d ∈ acc
    · rw [appendIfMissing_of_mem hmem, foldl_appendIfMissing_eq_append_filter ds hds acc]
      simp [List.filter_cons, hmem]
    · rw [appendIfMissing_of_not_mem hmem,
        foldl_appendIfMissing_eq_append_filter ds hds (acc ++ [d])]
      have hfilter : ds.filter (fun t => !(acc ++ [d]).contains t) =
          ds.filter (fun t => !acc.contains t) := by
        apply List.filter_congr
        intro t ht
        have htd : t ≠ d := fun e => hdd (e ▸ ht)
        simp [List.mem_append, htd]
      rw [hfilter]
      simp [List.filter_cons, hmem, List.append_assoc]

/-- The three derived tags of `CustomizeTemplate` are pairwise distinct:
they start with the distinct characters `s`, `e`, `n`. -/
theorem derivedTags_nodup (service env nspace : String) :
    (["service:" ++ service, "env:" ++ env, "namespace:" ++ nspace] : List String).Nodup := by
  have h1 : "service:" ++ service ≠ "env:" ++ env := by
    intro h
    have hd := congrArg String.data h
    rw [String.data_append, String.data_append] at hd
    rw [show ("service:" : String).data = 's' :: ("ervice:" : String).data from rfl,
      show ("env:" : String).data = 'e' :: ("nv:" : String).data from rfl] at hd
    rw [List.cons_append, List.cons_append] at hd
    injection hd with hh _
    exact absurd hh (by decide)
  have h2 : "service:" ++ service ≠ "namespace:" ++ nspace := by
    intro h
    have hd := congrArg String.data h
    rw [String.data_append, String.data_append] at hd
    rw [show ("service:" : String).data = 's' :: ("ervice:" : String).data from rfl,
      show ("namespace:" : String).data = 'n' :: ("amespace:" : String).data from rfl] at hd
    rw [List.cons_append, List.cons_append] at hd
    injection hd with hh _
    exact absurd hh (by decide)
  have h3 : "env:" ++ env ≠ "namespace:" ++ nspace := by
    intro h
    have hd := congrArg String.data h
    rw [String.data_append, String.data_append] at hd
    rw [show ("env:" : String).data = 'e' :: ("nv:" : String).data from rfl,
      show ("namespace:" : String).data = 'n' :: ("amespace:" : String).data from rfl] at hd
    rw [List.cons_append, List.cons_append] at hd
    injection hd with hh _
    exact absurd hh (by decide)
  rw [List.nodup_cons, List.nodup_cons]
  refine ⟨?_, ?_, List.nodup_singleton _⟩
  · simp [h1, h2]
  · simp [h3]

/-- C8. The customized tag list is the template's own tags first, in
order, then the derived `service:`, `env:`, `namespace:` tags in that
fixed order skipping any already present, then the extra tags in call
order with the same skip rule; membership is exactly the union, no
duplicate is introduced, and a template already containing its derived
service tag keeps a single occurrence of it. -/
theorem customizeTemplateTags_spec (templateTags : List String) (service env nspace : String)
    (additionalTags : List String) :
    (∃ rest, customizeTemplateTags templateTags service env nspace additionalTags =
      templateTags ++ rest) ∧
    customizeTemplateTags templateTags service env nspace additionalTags =
      additionalTags.foldl appendIfMissing
        (templateTags ++
          (["service:" ++ service, "env:" ++ env, "namespace:" ++ nspace].filter
            (fun t => !templateTags.contains t))) ∧
    (∀ x, x ∈ customizeTemplateTags templateTags service env nspace additionalTags ↔
      x ∈ templateTags ∨
        x ∈ ["service:" ++ service, "env:" ++ env, "namespace:" ++ nspace] ∨
        x ∈ additionalTags) ∧
    (templateTags.Nodup →
      (customizeTemplateTags templateTags service env nspace additionalTags).Nodup) ∧
    List.count "service:checkout"
      (customizeTemplateTags ["service:checkout", "team:payments"] "checkout" "prd" "shop" [])
      = 1 := by
  refine ⟨?_, ?_, ?_, ?_, by decide⟩
  · rcases foldl_appendIfMissing_exists_rest
      ["service:" ++ service, "env:" ++ env, "namespace:" ++ nspace] templateTags with ⟨r1, h1⟩
    rcases foldl_appendIfMissing_exists_rest additionalTags (templateTags ++ r1) with ⟨r2, h2⟩
    refine ⟨r1 ++ r2, ?_⟩
    show List.foldl appendIfMissing
      (List.foldl appendIfMissing templateTags
        ["service:" ++ service, "env:" ++ env, "namespace:" ++ nspace]) additionalTags =
      templateTags ++ (r1 ++ r2)
    rw [h1, h2, List.append_assoc]
  · show List.foldl appendIfMissing
      (List.foldl appendIfMissing templateTags
        ["service:" ++ service, "env:" ++ env, "namespace:" ++ nspace]) additionalTags = _
    rw [foldl_appendIfMissing_eq_append_filter
      ["service:" ++ service, "env:" ++ env, "namespace:" ++ nspace]
      (derivedTags_nodup service env nspace) templateTags]
  · intro x
    unfold customizeTemplateTags
    rw [mem_foldl_appendIfMissing, mem_foldl_appendIfMissing]
    tauto
  · intro h
    unfold customizeTemplateTags
    exact nodup_foldl_appendIfMissing _ _ (nodup_foldl_appendIfMissing _ _ h)

/-- C8 witness: the tag computation applied at a concrete duplicate-free
template tag list stays duplicate-free. -/
theorem customizeTemplateTags_spec_witness :
    (customizeTemplateTags ["team:payments"] "checkout" "prd" "shop" ["owner:core"]).Nodup :=
  (customizeTemplateTags_spec ["team:payments"] "checkout" "prd" "shop"
    ["owner:core"]).2.2.2.1 (by decide)

/-- C5 counterexample. A top-level JSON array is valid JSON and matches
neither template shape, yet loading reports an error instead of a single
anonymous template: the fallback unmarshal into a map rejects every
non-object document. -/
theorem LoadTemplateFromJSON_array_counterexample :
    exceptIsError (LoadTemplateFromJSON (Json.arr [Json.int 1, Json.int 2, Json.int 3])) =
      true := by
  rfl

/-- C5 amended. For every valid JSON document that is an object, when no
decodable non-empty `templates` array is present — whether or not the
object matches the single-template shape — loading succeeds with exactly
one template named `Single Template` whose config is the whole document;
non-object documents such as arrays are rejected. -/
theorem LoadTemplateFromJSON_object_fallback (fields : List (String × Json))
    (h : hasNonemptyTemplates (Json.obj fields) = false) :
    LoadTemplateFromJSON (Json.obj fields) =
      .ok [⟨"Single Template", fields⟩] := by
  unfold hasNonemptyTemplates at h
  unfold LoadTemplateFromJSON
  cases hdec : decodeTemplateFile (Json.obj fields) with
  | error e => rfl
  | ok ts =>
    rw [hdec] at h
    cases ts with
    | nil => rfl
    | cons a as => exact Bool.noConfusion h

/-- C5 witness: a single-template-shaped object without a `templates`
array loads as one anonymous template carrying the whole document. -/
theorem LoadTemplateFromJSON_object_fallback_witness :
    LoadTemplateFromJSON
      (Json.obj [("name", Json.str "CPU high"), ("query", Json.str "avg:cpu")]) =
      .ok [⟨"Single Template",
        [("name", Json.str "CPU high"), ("query", Json.str "avg:cpu")]⟩] :=
  LoadTemplateFromJSON_object_fallback
    [("name", Json.str "CPU high"), ("query", Json.str "avg:cpu")] rfl

/-- C10 counterexample. A JSON integer just above the signed 64-bit
range is coerced to 0 rather than decoded to its parsed value, so the
decoded value is not always the parsed integer of a JSON integer input. -/
theorem unmarshalTimestamp_int64_overflow :
    unmarshalTimestamp (Json.int 9223372036854775808) = .ok 0 ∧
    unmarshalTimestamp (Json.int 9223372036854775808) ≠ .ok 9223372036854775808 := by
  exact ⟨by decide, by decide⟩

/-- C10 amended. Deserializing a timestamp never fails: the result is
the parsed integer for a JSON integer within the signed 64-bit range and
for a string parsing as a decimal integer in that range, and 0 for every
other input — non-numeric or out-of-range strings, out-of-range
integers, floats, booleans, arrays, objects and null. -/
theorem unmarshalTimestamp_total_spec :
    (∀ j : Json, ∃ v : Int, unmarshalTimestamp j = .ok v) ∧
    (∀ n : Int, int64Lo ≤ n → n ≤ int64Hi → unmarshalTimestamp (Json.int n) = .ok n) ∧
    (∀ n : Int, ¬ (int64Lo ≤ n ∧ n ≤ int64Hi) → unmarshalTimestamp (Json.int n) = .ok 0) ∧
    (∀ (s : String) (v : Int), parseInt64 s = some v →
      unmarshalTimestamp (Json.str s) = .ok v) ∧
    (∀ s : String, parseInt64 s = none → unmarshalTimestamp (Json.str s) = .ok 0) ∧
    unmarshalTimestamp Json.null = .ok 0 ∧
    (∀ b, unmarshalTimestamp (Json.bool b) = .ok 0) ∧
    (∀ lit, unmarshalTimestamp (Json.numOther lit) = .ok 0) ∧
    (∀ elems, unmarshalTimestamp (Json.arr elems) = .ok 0) ∧
    (∀ fields, unmarshalTimestamp (Json.obj fields) = .ok 0) := by
  have hint : ∀ n : Int, unmarshalTimestamp (Json.int n) =
      if (int64Lo ≤ n && n ≤ int64Hi) = true then .ok n else .ok 0 := by
    intro n
    unfold unmarshalTimestamp unmarshalGoString unmarshalGoInt64
    by_cases hr : (int64Lo ≤ n && n ≤ int64Hi) = true
    · simp [hr]
    · have hr' : (int64Lo ≤ n && n ≤ int64Hi) = false := by simpa using hr
      simp [hr']
  have hstr : ∀ s : String, unmarshalTimestamp (Json.str s) =
      match parseInt64 s with
      | some v => .ok v
      | none => .ok 0 := by
    intro s
    rfl
  refine ⟨?_, ?_, ?_, ?_, ?_, rfl, fun _ => rfl, fun _ => rfl, fun _ => rfl, fun _ => rfl⟩
  · intro j
    cases j with
    | null => exact ⟨0, rfl⟩
    | bool b => exact ⟨0, rfl⟩
    | numOther lit => exact ⟨0, rfl⟩
    | arr elems => exact ⟨0, rfl⟩
    | obj fields => exact ⟨0, rfl⟩
    | int n =>
      rw [hint n]
      by_cases hr : (int64Lo ≤ n && n ≤ int64Hi) = true
      · exact ⟨n, by rw [if_pos hr]⟩
      · exact ⟨0, by rw [if_neg hr]⟩
    | str s =>
      rw [hstr s]
      cases hp : parseInt64 s with
      | some v => exact ⟨v, rfl⟩
      | none => exact ⟨0, rfl⟩
  · intro n h1 h2
    rw [hint n]
    have hb : (int64Lo ≤ n && n ≤ int64Hi) = true := by simp [h1, h2]
    rw [if_pos hb]
  · intro n h
    rw [hint n]
    have hb : ¬ (int64Lo ≤ n && n ≤ int64Hi) = true := by
      intro hb
      rcases Bool.and_eq_true_iff.1 hb with ⟨hb1, hb2⟩
      exact h ⟨by simpa using hb1, by simpa using hb2⟩
    rw [if_neg hb]
  · intro s v hp
    rw [hstr s, hp]
  · intro s hp
    rw [hstr s, hp]

/-- C10 witness: the amended characterization applied at an in-range
integer, an in-range signed numeric string, and a non-numeric string. -/
theorem unmarshalTimestamp_total_spec_witness :
    unmarshalTimestamp (Json.int 1700000000) = .ok 1700000000 ∧
    unmarshalTimestamp (Json.str "-5") = .ok (-5) ∧
    unmarshalTimestamp (Json.str "No Data") = .ok 0 :=
  ⟨unmarshalTimestamp_total_spec.2.1 1700000000 (by decide) (by decide),
   unmarshalTimestamp_total_spec.2.2.2.1 "-5" (-5) (by decide),
   unmarshalTimestamp_total_spec.2.2.2.2.1 "No Data" (by decide)⟩
